import Mathlib

/-!
Verification of the in-memory to-do item store of `main.go`
(package main, gin-based CRUD service).

The Go program keeps a `TodoHandler` struct with a `map[int]TodoItem`,
an integer counter `lastID`, and a `sync.RWMutex`.  We embed the store
shallowly:

* the Go map is an association list `List (Int × TodoItem)` in an
  arbitrary internal order (Go map iteration order is unspecified);
  `mapLookup`, `mapInsert` and `mapDelete` give the map semantics
  (`m[k]`, `m[k] = v`, `delete(m, k)`);
* each HTTP handler becomes a function from the parse results of its
  inputs (body / path id, `Option`-valued since `strconv.Atoi` and
  `ShouldBindJSON` are fallible) and the current store to a response
  and the next store;
* `sort.Sort(items)` with `Less i j = items[i].Id < items[j].Id` is
  embedded as `List.insertionSort` by ascending `Id` (any comparison
  sort agrees with it on lists whose ids are distinct);
* the `RWMutex` acquire/release calls on each control path of a
  handler are recorded by the `...LockTrace` functions, so that lock
  balance on every exit path is a statement about lists of events.
-/

set_option autoImplicit false

namespace TodoList

/-- `type TodoItem struct { Id int; Name string; IsComplete bool }`. -/
structure TodoItem where
  Id : Int
  Name : String
  IsComplete : Bool
deriving Repr, DecidableEq

/-- `type PostTodoItem struct { Name string }` — the create request body. -/
structure PostTodoItem where
  Name : String
deriving Repr, DecidableEq

/-- `type PutTodoItem struct { Name string; IsComplete bool }` — the update request body. -/
structure PutTodoItem where
  Name : String
  IsComplete : Bool
deriving Repr, DecidableEq

/-- `type TodoHandler struct { items map[int]TodoItem; lastID int; sync.RWMutex }`.
The map is carried as an association list in arbitrary internal order. -/
structure TodoHandler where
  items : List (Int × TodoItem)
  lastID : Int
deriving Repr, DecidableEq

/-- `func NewTodoHandler(lastID int) TodoHandler` — empty map, given counter. -/
def NewTodoHandler (lastID : Int) : TodoHandler :=
  { items := [], lastID := lastID }

/-- What a handler writes to the `gin.Context`: a JSON payload with
status 200, or a plain-text error string with status 400 / 404. -/
inductive Response where
  | okItems (items : List TodoItem)
  | okItem (item : TodoItem)
  | okEmpty
  | badRequest (msg : String)
  | notFound (id : Int)
deriving Repr, DecidableEq

/-- Go map read `item, ok := m[k]`: `some` iff the key is present. -/
def mapLookup (k : Int) : List (Int × TodoItem) → Option TodoItem
  | [] => none
  | (k', v) :: rest => if k = k' then some v else mapLookup k rest

/-- Go map write `m[k] = v`: replaces the entry if the key is present,
inserts it otherwise. -/
def mapInsert (k : Int) (v : TodoItem) : List (Int × TodoItem) → List (Int × TodoItem)
  | [] => [(k, v)]
  | (k', v') :: rest => if k = k' then (k, v) :: rest else (k', v') :: mapInsert k v rest

/-- Go `delete(m, k)`: removes the entry with key `k` when present. -/
def mapDelete (k : Int) : List (Int × TodoItem) → List (Int × TodoItem)
  | [] => []
  | (k', v') :: rest => if k = k' then rest else (k', v') :: mapDelete k rest

/-- The items stored in the map, in internal order (`for _, item := range th.items`). -/
def storeItems (th : TodoHandler) : List TodoItem :=
  th.items.map Prod.snd

/-- The comparison induced by `Less i j = items[i].Id < items[j].Id`:
`sort.Sort` orders by nondecreasing `Id`. -/
def idLE (a b : TodoItem) : Prop :=
  a.Id ≤ b.Id

instance : DecidableRel idLE := fun a b => inferInstanceAs (Decidable (a.Id ≤ b.Id))

instance : IsTotal TodoItem idLE := ⟨fun a b => Int.le_total a.Id b.Id⟩

instance : IsTrans TodoItem idLE := ⟨fun _ _ _ h h' => Int.le_trans h h'⟩

/-- `sort.Sort(items)` where `Less i j` compares by `Id`:
sorting into ascending id order. -/
def sortItems (l : List TodoItem) : List TodoItem :=
  List.insertionSort idLE l

/-- `func (th *TodoHandler) GetItems(c *gin.Context)`: copies the map
values into a slice, sorts them by id, writes them with status 200.
Read-only: the store is returned unchanged. -/
def GetItems (th : TodoHandler) : Response × TodoHandler :=
  (Response.okItems (sortItems (storeItems th)), th)

/-- `func (th *TodoHandler) GetItemByID(c *gin.Context)`.
`idParse` is the result of `strconv.Atoi(c.Param("id"))`. -/
def GetItemByID (idParse : Option Int) (th : TodoHandler) : Response × TodoHandler :=
  match idParse with
  | none => (Response.badRequest "Bad request: Id in path is not a valid id", th)
  | some id =>
    match mapLookup id th.items with
    | none => (Response.notFound id, th)
    | some item => (Response.okItem item, th)

/-- The body of `PostItem` after a successful JSON bind:
`th.lastID++; th.items[th.lastID] = TodoItem{Id: th.lastID, Name: item.Name, IsComplete: false}`. -/
def PostItemCore (name : String) (th : TodoHandler) : TodoHandler :=
  let newID := th.lastID + 1
  { items := mapInsert newID { Id := newID, Name := name, IsComplete := false } th.items,
    lastID := newID }

/-- `func (th *TodoHandler) PostItem(c *gin.Context)`.
`bodyParse` is the result of `c.ShouldBindJSON(&item)`. -/
def PostItem (bodyParse : Option PostTodoItem) (th : TodoHandler) : Response × TodoHandler :=
  match bodyParse with
  | none => (Response.badRequest "Bad request", th)
  | some item => (Response.okEmpty, PostItemCore item.Name th)

/-- The body of `PutItem` after both parses succeed: look the item up,
early-return not-found if absent, otherwise execute
`item.Name, item.IsComplete, th.items[id] = putItem.Name, putItem.IsComplete, item`.
Go assignment statements are two-phase: all right-hand operands are
evaluated first, then the assignments are carried out left to right.
The third right-hand expression `item` therefore evaluates to the item
as fetched from the map, before the two field writes, so `th.items[id]`
receives the OLD item and the writes to the local variable `item` are
dead: the found path stores the unmodified item back. -/
def PutItemCore (id : Int) (_name : String) (_isComplete : Bool) (th : TodoHandler) :
    Response × TodoHandler :=
  match mapLookup id th.items with
  | none => (Response.notFound id, th)
  | some item =>
    (Response.okEmpty, { th with items := mapInsert id item th.items })

/-- `func (th *TodoHandler) PutItem(c *gin.Context)`: the JSON body is
bound first, then the path id is parsed, then the store is updated. -/
def PutItem (bodyParse : Option PutTodoItem) (idParse : Option Int) (th : TodoHandler) :
    Response × TodoHandler :=
  match bodyParse with
  | none => (Response.badRequest "Bad request", th)
  | some putItem =>
    match idParse with
    | none => (Response.badRequest "Bad request: Id in url is not a valid id", th)
    | some id => PutItemCore id putItem.Name putItem.IsComplete th

/-- The body of `DeleteItem` after the id parse succeeds: check presence,
early-return not-found if absent, otherwise `delete(th.items, id)`. -/
def DeleteItemCore (id : Int) (th : TodoHandler) : Response × TodoHandler :=
  match mapLookup id th.items with
  | none => (Response.notFound id, th)
  | some _ => (Response.okEmpty, { th with items := mapDelete id th.items })

/-- `func (th *TodoHandler) DeleteItem(c *gin.Context)`. -/
def DeleteItem (idParse : Option Int) (th : TodoHandler) : Response × TodoHandler :=
  match idParse with
  | none => (Response.badRequest "Bad request: Id in url is not a valid id", th)
  | some id => DeleteItemCore id th

/-! ## Lock traces

Each `...LockTrace` function records, in order, the `RWMutex` calls the
corresponding Go handler executes on the control path selected by the
given inputs and store. -/

/-- An acquire or release of the `sync.RWMutex` embedded in `TodoHandler`. -/
inductive LockEvent where
  | lockW
  | unlockW
  | lockR
  | unlockR
deriving Repr, DecidableEq

/-- `GetItems`: `th.RLock()` … `th.RUnlock()`, one path. -/
def GetItemsLockTrace (th : TodoHandler) : List LockEvent :=
  let _ := th
  [LockEvent.lockR, LockEvent.unlockR]

/-- `GetItemByID`: returns before locking on a bad id; otherwise both
the not-found and the found branch fall through to `th.RUnlock()`. -/
def GetItemByIDLockTrace (idParse : Option Int) (th : TodoHandler) : List LockEvent :=
  let _ := th
  match idParse with
  | none => []
  | some _ => [LockEvent.lockR, LockEvent.unlockR]

/-- `PostItem`: returns before locking on a bad body; otherwise
`th.Lock()` … `th.Unlock()`, one path. -/
def PostItemLockTrace (bodyParse : Option PostTodoItem) (th : TodoHandler) : List LockEvent :=
  let _ := th
  match bodyParse with
  | none => []
  | some _ => [LockEvent.lockW, LockEvent.unlockW]

/-- `PutItem`: returns before locking on a bad body or bad id; after
`th.Lock()` the `defer th.Unlock()` runs on every return, including the
early not-found return. -/
def PutItemLockTrace (bodyParse : Option PutTodoItem) (idParse : Option Int)
    (th : TodoHandler) : List LockEvent :=
  let _ := th
  match bodyParse with
  | none => []
  | some _ =>
    match idParse with
    | none => []
    | some _ => [LockEvent.lockW, LockEvent.unlockW]

/-- `DeleteItem`: returns before locking on a bad id; after `th.Lock()`
there is no `defer`, so the early not-found `return` skips the final
`th.Unlock()` and only the successful delete path releases the lock. -/
def DeleteItemLockTrace (idParse : Option Int) (th : TodoHandler) : List LockEvent :=
  match idParse with
  | none => []
  | some id =>
    match mapLookup id th.items with
    | none => [LockEvent.lockW]
    | some _ => [LockEvent.lockW, LockEvent.unlockW]

/-- A trace releases the writer lock as often as it acquires it. -/
def writerBalanced (t : List LockEvent) : Prop :=
  t.count LockEvent.lockW = t.count LockEvent.unlockW

instance (t : List LockEvent) : Decidable (writerBalanced t) := by
  unfold writerBalanced; infer_instance

/-! ## Operation sequences -/

/-- A successfully parsed mutating request, for reasoning about
sequences of operations against the store. -/
inductive Op where
  | create (name : String)
  | update (id : Int) (name : String) (isComplete : Bool)
  | delete (id : Int)
deriving Repr, DecidableEq

/-- The store after one parsed mutating request. -/
def applyOp (th : TodoHandler) (op : Op) : TodoHandler :=
  match op with
  | Op.create name => PostItemCore name th
  | Op.update id name isComplete => (PutItemCore id name isComplete th).2
  | Op.delete id => (DeleteItemCore id th).2

/-- The store after a sequence of parsed mutating requests. -/
def run (ops : List Op) (th : TodoHandler) : TodoHandler :=
  ops.foldl applyOp th

/-- The ids assigned by the successful Create calls of a sequence, in
order: `PostItem` assigns `th.lastID + 1` each time it runs. -/
def assignedIds (ops : List Op) (th : TodoHandler) : List Int :=
  match ops with
  | [] => []
  | op :: rest =>
    match op with
    | Op.create _ => (th.lastID + 1) :: assignedIds rest (applyOp th op)
    | _ => assignedIds rest (applyOp th op)

/-- Every item's `Id` field equals the map key it is stored under. -/
def IdsMatchKeys (th : TodoHandler) : Prop :=
  ∀ p ∈ th.items, p.2.Id = p.1

/-! ## Map lemmas -/

theorem mapLookup_mapInsert_self (k : Int) (v : TodoItem) (l : List (Int × TodoItem)) :
    mapLookup k (mapInsert k v l) = some v := by
  induction l with
  | nil => simp [mapInsert, mapLookup]
  | cons p rest ih =>
    obtain ⟨k', v'⟩ := p
    by_cases h : k = k' <;> simp [mapInsert, mapLookup, h, ih]

theorem mapLookup_mapInsert_ne (k k' : Int) (v : TodoItem) (l : List (Int × TodoItem))
    (h : k' ≠ k) : mapLookup k' (mapInsert k v l) = mapLookup k' l := by
  induction l with
  | nil => simp [mapInsert, mapLookup, h]
  | cons p rest ih =>
    obtain ⟨k₀, v₀⟩ := p
    by_cases hk : k = k₀
    · subst hk; simp [mapInsert, mapLookup, h]
    · by_cases hk' : k' = k₀ <;> simp [mapInsert, mapLookup, hk, hk', ih]

theorem mapInsert_mapInsert_self (k : Int) (v w : TodoItem) (l : List (Int × TodoItem)) :
    mapInsert k v (mapInsert k w l) = mapInsert k v l := by
  induction l with
  | nil => simp [mapInsert]
  | cons p rest ih =>
    obtain ⟨k', v'⟩ := p
    by_cases h : k = k' <;> simp [mapInsert, h, ih]

theorem mem_mapInsert (p : Int × TodoItem) (k : Int) (v : TodoItem)
    (l : List (Int × TodoItem)) (hp : p ∈ mapInsert k v l) : p = (k, v) ∨ p ∈ l := by
  induction l with
  | nil => simpa [mapInsert] using hp
  | cons q rest ih =>
    obtain ⟨k', v'⟩ := q
    by_cases h : k = k'
    · subst h
      rcases (by simpa [mapInsert] using hp : p = (k, v) ∨ p ∈ rest) with h' | h'
      · exact Or.inl h'
      · exact Or.inr (List.mem_cons_of_mem _ h')
    · rcases (by simpa [mapInsert, h] using hp : p = (k', v') ∨ p ∈ mapInsert k v rest) with h' | h'
      · exact Or.inr (by simp [h'])
      · rcases ih h' with h'' | h''
        · exact Or.inl h''
        · exact Or.inr (List.mem_cons_of_mem _ h'')

theorem mem_mapDelete (p : Int × TodoItem) (k : Int) (l : List (Int × TodoItem))
    (hp : p ∈ mapDelete k l) : p ∈ l := by
  induction l with
  | nil => simp [mapDelete] at hp
  | cons q rest ih =>
    obtain ⟨k', v'⟩ := q
    by_cases h : k = k'
    · subst h
      exact List.mem_cons_of_mem _ (by simpa [mapDelete] using hp)
    · rcases (by simpa [mapDelete, h] using hp : p = (k', v') ∨ p ∈ mapDelete k rest) with h' | h'
      · simp [h']
      · exact List.mem_cons_of_mem _ (ih h')

theorem mapInsert_lookup_self (k : Int) (v : TodoItem) (l : List (Int × TodoItem))
    (h : mapLookup k l = some v) : mapInsert k v l = l := by
  induction l with
  | nil => simp [mapLookup] at h
  | cons p rest ih =>
    obtain ⟨k', v'⟩ := p
    by_cases hk : k = k'
    · subst hk
      simp [mapLookup] at h
      simp [mapInsert, h]
    · simp only [mapLookup, if_neg hk] at h
      simp [mapInsert, hk, ih h]

theorem mapLookup_mem (k : Int) (v : TodoItem) (l : List (Int × TodoItem))
    (h : mapLookup k l = some v) : (k, v) ∈ l := by
  induction l with
  | nil => simp [mapLookup] at h
  | cons q rest ih =>
    obtain ⟨k', v'⟩ := q
    by_cases hk : k = k'
    · subst hk
      simp [mapLookup] at h
      simp [h]
    · exact List.mem_cons_of_mem _ (ih (by simpa [mapLookup, hk] using h))

/-! ## State lemmas -/

theorem lastID_applyOp (th : TodoHandler) (op : Op) : th.lastID ≤ (applyOp th op).lastID := by
  cases op with
  | create name => simp [applyOp, PostItemCore]
  | update id name isComplete =>
    cases h : mapLookup id th.items <;> simp [applyOp, PutItemCore, h]
  | delete id =>
    cases h : mapLookup id th.items <;> simp [applyOp, DeleteItemCore, h]

theorem assignedIds_gt_pairwise (ops : List Op) :
    ∀ th : TodoHandler,
      (∀ x ∈ assignedIds ops th, th.lastID < x) ∧
        List.Pairwise (· < ·) (assignedIds ops th) := by
  induction ops with
  | nil => intro th; simp [assignedIds]
  | cons op rest ih =>
    intro th
    have hmono := lastID_applyOp th op
    obtain ⟨ihgt, ihpw⟩ := ih (applyOp th op)
    cases op with
    | create name =>
      have hlast : (applyOp th (Op.create name)).lastID = th.lastID + 1 := by
        simp [applyOp, PostItemCore]
      refine ⟨?_, ?_⟩
      · intro x hx
        rcases (by simpa [assignedIds] using hx :
            x = th.lastID + 1 ∨ x ∈ assignedIds rest (applyOp th (Op.create name))) with h | h
        · omega
        · have := ihgt x h; omega
      · have hhead : ∀ x ∈ assignedIds rest (applyOp th (Op.create name)), th.lastID + 1 < x := by
          intro x hx
          have := ihgt x hx; omega
        simpa [assignedIds] using List.Pairwise.cons hhead ihpw
    | update id name isComplete =>
      refine ⟨fun x hx => ?_, by simpa [assignedIds] using ihpw⟩
      have := ihgt x (by simpa [assignedIds] using hx)
      omega
    | delete id =>
      refine ⟨fun x hx => ?_, by simpa [assignedIds] using ihpw⟩
      have := ihgt x (by simpa [assignedIds] using hx)
      omega

theorem run_cons (op : Op) (ops : List Op) (th : TodoHandler) :
    run (op :: ops) th = run ops (applyOp th op) := rfl

theorem IdsMatchKeys_applyOp (th : TodoHandler) (op : Op) (h : IdsMatchKeys th) :
    IdsMatchKeys (applyOp th op) := by
  cases op with
  | create name =>
    intro p hp
    rcases mem_mapInsert p _ _ _ (by simpa [applyOp, PostItemCore] using hp) with h' | h'
    · simp [h']
    · exact h p h'
  | update id name isComplete =>
    cases hl : mapLookup id th.items with
    | none => simpa [applyOp, PutItemCore, hl] using h
    | some item =>
      have hid : item.Id = id := h (id, item) (mapLookup_mem id item th.items hl)
      intro p hp
      rcases mem_mapInsert p _ _ _ (by simpa [applyOp, PutItemCore, hl] using hp) with h' | h'
      · simp [h', hid]
      · exact h p h'
  | delete id =>
    cases hl : mapLookup id th.items with
    | none => simpa [applyOp, DeleteItemCore, hl] using h
    | some item =>
      intro p hp
      exact h p (mem_mapDelete p id th.items (by simpa [applyOp, DeleteItemCore, hl] using hp))

/-! ## Sorting lemmas -/

/-- The strict comparison `Less` of `TodoItemCollection`. -/
def idLT (a b : TodoItem) : Prop :=
  a.Id < b.Id

instance : IsAntisymm TodoItem idLT :=
  ⟨fun _ _ h h' => absurd (Int.lt_trans h h') (Int.lt_irrefl _)⟩

theorem sortItems_perm (l : List TodoItem) : (sortItems l).Perm l :=
  List.perm_insertionSort idLE l

theorem sortItems_sorted (l : List TodoItem) : List.Pairwise idLE (sortItems l) :=
  List.sorted_insertionSort idLE l

theorem sortItems_pairwise_lt (l : List TodoItem) (h : (l.map TodoItem.Id).Nodup) :
    List.Pairwise idLT (sortItems l) := by
  have hperm : (sortItems l).Perm l := sortItems_perm l
  have hnd : ((sortItems l).map TodoItem.Id).Nodup := ((hperm.map TodoItem.Id).nodup_iff).mpr h
  have hne : List.Pairwise (fun a b : TodoItem => a.Id ≠ b.Id) (sortItems l) :=
    List.pairwise_map.mp hnd
  exact ((sortItems_sorted l).and hne).imp fun hab => lt_of_le_of_ne hab.1 hab.2

theorem sortItems_eq_of_perm (l l' : List TodoItem) (h : (l.map TodoItem.Id).Nodup)
    (hperm : l.Perm l') : sortItems l = sortItems l' := by
  have h' : (l'.map TodoItem.Id).Nodup := ((hperm.map TodoItem.Id).nodup_iff).mp h
  have hp : (sortItems l).Perm (sortItems l') :=
    (sortItems_perm l).trans (hperm.trans (sortItems_perm l').symm)
  exact List.eq_of_perm_of_sorted hp (sortItems_pairwise_lt l h) (sortItems_pairwise_lt l' h')

/-! ## Key uniqueness of reachable stores -/

/-- The map keys are distinct (true of any Go map). -/
def KeysNodup (th : TodoHandler) : Prop :=
  (th.items.map Prod.fst).Nodup

theorem mem_keys_mapInsert (k k' : Int) (v : TodoItem) (l : List (Int × TodoItem))
    (h : k' ∈ (mapInsert k v l).map Prod.fst) : k' = k ∨ k' ∈ l.map Prod.fst := by
  obtain ⟨p, hp, rfl⟩ := List.mem_map.mp h
  rcases mem_mapInsert p k v l hp with h' | h'
  · simp [h']
  · exact Or.inr (List.mem_map_of_mem Prod.fst h')

theorem keysNodup_mapInsert (k : Int) (v : TodoItem) (l : List (Int × TodoItem))
    (h : (l.map Prod.fst).Nodup) : ((mapInsert k v l).map Prod.fst).Nodup := by
  induction l with
  | nil => simp [mapInsert]
  | cons p rest ih =>
    obtain ⟨k', v'⟩ := p
    simp only [List.map_cons, List.nodup_cons] at h
    by_cases hk : k = k'
    · subst hk
      simpa [mapInsert] using h
    · rw [show mapInsert k v ((k', v') :: rest) = (k', v') :: mapInsert k v rest by
        simp [mapInsert, hk]]
      refine List.nodup_cons.mpr ⟨?_, ih h.2⟩
      intro hmem
      rcases mem_keys_mapInsert k k' v rest (by simpa using hmem) with h' | h'
      · exact hk h'.symm
      · exact h.1 h'

theorem mapDelete_sublist (k : Int) (l : List (Int × TodoItem)) :
    (mapDelete k l).Sublist l := by
  induction l with
  | nil => simp [mapDelete]
  | cons p rest ih =>
    obtain ⟨k', v'⟩ := p
    by_cases h : k = k'
    · rw [show mapDelete k ((k', v') :: rest) = rest by simp [mapDelete, h]]
      exact List.sublist_cons_self (k', v') rest
    · rw [show mapDelete k ((k', v') :: rest) = (k', v') :: mapDelete k rest by
        simp [mapDelete, h]]
      exact ih.cons₂ (k', v')

theorem KeysNodup_applyOp (th : TodoHandler) (op : Op) (h : KeysNodup th) :
    KeysNodup (applyOp th op) := by
  cases op with
  | create name => exact keysNodup_mapInsert _ _ th.items h
  | update id name isComplete =>
    cases hl : mapLookup id th.items with
    | none => simpa [applyOp, PutItemCore, hl] using h
    | some item =>
      have := keysNodup_mapInsert id item th.items h
      simpa [applyOp, PutItemCore, hl, KeysNodup] using this
  | delete id =>
    cases hl : mapLookup id th.items with
    | none => simpa [applyOp, DeleteItemCore, hl] using h
    | some item =>
      have hitems : (applyOp th (Op.delete id)).items = mapDelete id th.items := by
        simp [applyOp, DeleteItemCore, hl]
      rw [KeysNodup, hitems]
      exact List.Nodup.sublist ((mapDelete_sublist id th.items).map Prod.fst) h

theorem run_invariants (ops : List Op) :
    KeysNodup (run ops (NewTodoHandler 0)) ∧ IdsMatchKeys (run ops (NewTodoHandler 0)) := by
  suffices h : ∀ th, KeysNodup th → IdsMatchKeys th →
      KeysNodup (run ops th) ∧ IdsMatchKeys (run ops th) by
    refine h _ (by simp [NewTodoHandler, KeysNodup]) ?_
    intro p hp
    simp [NewTodoHandler] at hp
  induction ops with
  | nil => intro th h₁ h₂; exact ⟨h₁, h₂⟩
  | cons op rest ih =>
    intro th h₁ h₂
    rw [run_cons]
    exact ih _ (KeysNodup_applyOp th op h₁) (IdsMatchKeys_applyOp th op h₂)

/-- Justifies the id-distinctness hypotheses below: in every store
reachable from the initial store, the items' `Id` fields are distinct. -/
theorem run_ids_nodup (ops : List Op) :
    ((storeItems (run ops (NewTodoHandler 0))).map TodoItem.Id).Nodup := by
  obtain ⟨h₁, h₂⟩ := run_invariants ops
  have heq : (storeItems (run ops (NewTodoHandler 0))).map TodoItem.Id =
      (run ops (NewTodoHandler 0)).items.map Prod.fst := by
    rw [storeItems, List.map_map]
    exact List.map_congr_left fun p hp => h₂ p hp
  rw [heq]
  exact h₁

/-! ## Claims -/

/-- C1: the claim asserts that every operation releases any lock it
acquired on every exit path, in particular on the early not-found
returns of Delete and Update.  `PutItem` does release the writer lock
on its not-found path (it uses `defer th.Unlock()`), but `DeleteItem`
has no `defer`: its not-found branch returns right after `th.Lock()`
and the final `th.Unlock()` is never executed, so on any absent id
(e.g. id 1 against the fresh empty store) the handler terminates still
holding the exclusive writer lock. -/
theorem DeleteItem_notFound_holds_writer_lock :
    DeleteItemLockTrace (some 1) (NewTodoHandler 0) = [LockEvent.lockW] ∧
      ¬ writerBalanced (DeleteItemLockTrace (some 1) (NewTodoHandler 0)) ∧
      writerBalanced
        (PutItemLockTrace (some { Name := "x", IsComplete := true }) (some 1)
          (NewTodoHandler 0)) := by
  refine ⟨rfl, by decide, by decide⟩

/-- C2: `GetItems` leaves the store unchanged and returns exactly the
items currently in the store (a permutation of the map's values),
sorted by strictly ascending id; two stores holding the same items in
different internal map orders produce the same response.  The
hypothesis that the stored ids are distinct holds in every reachable
store (`run_ids_nodup`). -/
theorem GetItems_sorted_complete_readonly (th th₂ : TodoHandler)
    (hids : ((storeItems th).map TodoItem.Id).Nodup) (hperm : th.items.Perm th₂.items) :
    (GetItems th).2 = th ∧
      (GetItems th).1 = Response.okItems (sortItems (storeItems th)) ∧
      (sortItems (storeItems th)).Perm (storeItems th) ∧
      List.Pairwise (fun a b => a.Id < b.Id) (sortItems (storeItems th)) ∧
      (GetItems th₂).1 = (GetItems th).1 := by
  refine ⟨rfl, rfl, sortItems_perm _, sortItems_pairwise_lt _ hids, ?_⟩
  have : sortItems (storeItems th₂) = sortItems (storeItems th) :=
    (sortItems_eq_of_perm _ _ hids (hperm.map Prod.snd)).symm
  simp [GetItems, this]

theorem GetItems_sorted_complete_readonly_witness :
    (GetItems ⟨[(2, ⟨2, "b", false⟩), (1, ⟨1, "a", true⟩)], 2⟩).2 =
        (⟨[(2, ⟨2, "b", false⟩), (1, ⟨1, "a", true⟩)], 2⟩ : TodoHandler) ∧
      (GetItems ⟨[(2, ⟨2, "b", false⟩), (1, ⟨1, "a", true⟩)], 2⟩).1 =
        Response.okItems
          (sortItems (storeItems ⟨[(2, ⟨2, "b", false⟩), (1, ⟨1, "a", true⟩)], 2⟩)) ∧
      (sortItems (storeItems ⟨[(2, ⟨2, "b", false⟩), (1, ⟨1, "a", true⟩)], 2⟩)).Perm
        (storeItems ⟨[(2, ⟨2, "b", false⟩), (1, ⟨1, "a", true⟩)], 2⟩) ∧
      List.Pairwise (fun a b => a.Id < b.Id)
        (sortItems (storeItems ⟨[(2, ⟨2, "b", false⟩), (1, ⟨1, "a", true⟩)], 2⟩)) ∧
      (GetItems ⟨[(1, ⟨1, "a", true⟩), (2, ⟨2, "b", false⟩)], 2⟩).1 =
        (GetItems ⟨[(2, ⟨2, "b", false⟩), (1, ⟨1, "a", true⟩)], 2⟩).1 :=
  GetItems_sorted_complete_readonly
    ⟨[(2, ⟨2, "b", false⟩), (1, ⟨1, "a", true⟩)], 2⟩
    ⟨[(1, ⟨1, "a", true⟩), (2, ⟨2, "b", false⟩)], 2⟩
    (by decide) (by decide)

/-- C3: starting from the initial store, the ids assigned by the
successful Create calls of any operation sequence are strictly
increasing and never repeat, even when Deletes (or Updates) occur
between the Creates. -/
theorem assignedIds_strictly_increasing (ops : List Op) :
    List.Chain' (· < ·) (assignedIds ops (NewTodoHandler 0)) ∧
      (assignedIds ops (NewTodoHandler 0)).Nodup := by
  obtain ⟨-, hpw⟩ := assignedIds_gt_pairwise ops (NewTodoHandler 0)
  exact ⟨hpw.chain', hpw.imp fun h => Int.ne_of_lt h⟩

/-- C4: the claim says that `PutItem` on an existing id replaces that
item's name and completion flag, so a following `GetItemByID` returns
`⟨id, X, b⟩`.  The code's one-liner
`item.Name, item.IsComplete, th.items[id] = putItem.Name, putItem.IsComplete, item`
does not do that: Go evaluates every right-hand side before carrying
out the assignments, so the map receives the item as fetched and the
two field writes are discarded.  Evaluated at the failing input —
`Update(1, "X", true)` on the store `{1 ↦ ⟨1, "a", false⟩}` — the call
reports success yet the store is unchanged and `GetItemByID 1` still
returns the old item `⟨1, "a", false⟩`, not `⟨1, "X", true⟩`. -/
theorem PutItem_stores_old_item_back :
    (PutItem (some { Name := "X", IsComplete := true }) (some 1)
        (⟨[(1, ⟨1, "a", false⟩)], 1⟩ : TodoHandler)).1 = Response.okEmpty ∧
      (PutItem (some { Name := "X", IsComplete := true }) (some 1)
          (⟨[(1, ⟨1, "a", false⟩)], 1⟩ : TodoHandler)).2 =
        (⟨[(1, ⟨1, "a", false⟩)], 1⟩ : TodoHandler) ∧
      (GetItemByID (some 1)
          (PutItem (some { Name := "X", IsComplete := true }) (some 1)
            (⟨[(1, ⟨1, "a", false⟩)], 1⟩ : TodoHandler)).2).1 =
        Response.okItem ⟨1, "a", false⟩ ∧
      Response.okItem (⟨1, "a", false⟩ : TodoItem) ≠
        Response.okItem ⟨1, "X", true⟩ := by
  refine ⟨by decide, by decide, by decide, by decide⟩

/-- C5: `GetItemByID`, `PutItem` and `DeleteItem` signal not-found for
exactly the same ids — those absent from the map — and when they do,
the store (contents and counter) is unchanged. -/
theorem notFound_symmetry (th : TodoHandler) (id : Int) (name : String) (b : Bool) :
    (((GetItemByID (some id) th).1 = Response.notFound id) ↔ mapLookup id th.items = none) ∧
      (((PutItem (some { Name := name, IsComplete := b }) (some id) th).1 =
          Response.notFound id) ↔ mapLookup id th.items = none) ∧
      (((DeleteItem (some id) th).1 = Response.notFound id) ↔
        mapLookup id th.items = none) ∧
      (mapLookup id th.items = none →
        (GetItemByID (some id) th).2 = th ∧
          (PutItem (some { Name := name, IsComplete := b }) (some id) th).2 = th ∧
          (DeleteItem (some id) th).2 = th) := by
  cases h : mapLookup id th.items with
  | none => simp [GetItemByID, PutItem, PutItemCore, DeleteItem, DeleteItemCore, h]
  | some item => simp [GetItemByID, PutItem, PutItemCore, DeleteItem, DeleteItemCore, h]

/-- C6: given a parsed body, `PostItem` never signals an error (for any
name, including duplicates), increments the counter exactly once, and
inserts an item whose `Id` is the new counter value and whose
`IsComplete` is false. -/
theorem PostItem_always_succeeds (th : TodoHandler) (item : PostTodoItem) :
    (PostItem (some item) th).1 = Response.okEmpty ∧
      (PostItem (some item) th).2.lastID = th.lastID + 1 ∧
      mapLookup (th.lastID + 1) (PostItem (some item) th).2.items =
        some { Id := th.lastID + 1, Name := item.Name, IsComplete := false } := by
  refine ⟨rfl, rfl, ?_⟩
  simpa [PostItem, PostItemCore] using
    mapLookup_mapInsert_self (th.lastID + 1)
      { Id := th.lastID + 1, Name := item.Name, IsComplete := false } th.items

/-- C7: in every store reachable from the initial store by Create,
Update and Delete operations, every item's `Id` field equals the map
key it is stored under. -/
theorem run_idsMatchKeys (ops : List Op) : IdsMatchKeys (run ops (NewTodoHandler 0)) :=
  (run_invariants ops).2

/-- C8: `GetItems` does not change the store, so calling it twice with
no intervening mutation returns identical responses (same items, same
order, same field values). -/
theorem GetItems_read_twice (th : TodoHandler) :
    (GetItems th).2 = th ∧ (GetItems (GetItems th).2).1 = (GetItems th).1 :=
  ⟨rfl, rfl⟩

/-- C9: `PutItem` binds the JSON body before parsing the path id, so a
request with an unparsable body is answered with the body-parse error
"Bad request" — for every id-parse outcome, including an invalid id —
and the store is unchanged. -/
theorem PutItem_checks_body_first (th : TodoHandler) (idParse : Option Int) :
    (PutItem none idParse th).1 = Response.badRequest "Bad request" ∧
      (PutItem none idParse th).2 = th :=
  ⟨rfl, rfl⟩

/-- C10: on a store containing the given id, applying the same
`PutItem` twice in succession yields the same store as applying it
once.  This holds — indeed the found path writes the fetched item back
unchanged (see `PutItemCore`), so each application leaves the store
exactly as it was. -/
theorem PutItem_idempotent (th : TodoHandler) (id : Int) (item : TodoItem)
    (name : String) (b : Bool) (h : mapLookup id th.items = some item) :
    (PutItem (some { Name := name, IsComplete := b }) (some id)
        (PutItem (some { Name := name, IsComplete := b }) (some id) th).2).2 =
      (PutItem (some { Name := name, IsComplete := b }) (some id) th).2 := by
  have h1 : (PutItem (some { Name := name, IsComplete := b }) (some id) th).2 = th := by
    have hins := mapInsert_lookup_self id item th.items h
    simp [PutItem, PutItemCore, h, hins]
  rw [h1, h1]

theorem PutItem_idempotent_witness :
    (PutItem (some { Name := "x", IsComplete := true }) (some 1)
        (PutItem (some { Name := "x", IsComplete := true }) (some 1)
          (⟨[(1, ⟨1, "a", false⟩)], 1⟩ : TodoHandler)).2).2 =
      (PutItem (some { Name := "x", IsComplete := true }) (some 1)
        (⟨[(1, ⟨1, "a", false⟩)], 1⟩ : TodoHandler)).2 :=
  PutItem_idempotent ⟨[(1, ⟨1, "a", false⟩)], 1⟩ 1 ⟨1, "a", false⟩ "x" true (by decide)

end TodoList
